import Mathlib

/-!
Verification of the scheduling/synchronization core specified for the
FreeRTOS demo/regression-test repository.  The repository's own source
files are the demo harnesses (IntSemTest.c, countsem.c, recmutex.c,
TimerDemo.c, ...); the kernel they exercise (tasks.c, queue.c, timers.c)
is not part of the source tree, so the kernel primitives are modelled
from the specification's description of the core (§4.1-§4.4) and checked
against the behaviour the in-tree harnesses assert.
-/

namespace FreeRTOSSpec

/-- Result of a kernel API call: `pdPASS` or `pdFAIL` in the C sources. -/
inductive KResult where
  | pass
  | fail
deriving DecidableEq, Repr

/-! ## Counting semaphore (spec §4.3)

Modelled from the spec: `xSemaphoreCreateCounting` / `xSemaphoreGive` /
`xSemaphoreTake` with a zero block time.  The kernel implementation
(queue.c) is not in the source tree; the model follows §4.3: an integer
count in `[0, max]`, give increments if `count < max` else fails, take
with zero timeout decrements if `count > 0` else fails. -/
structure CountingSem where
  maxCount : Nat
  count : Nat
deriving DecidableEq, Repr

/-- Modelled from the spec: `give(sem)` increments if `count < max`
else fails; give never blocks. -/
def semGive (s : CountingSem) : KResult × CountingSem :=
  if s.count < s.maxCount then
    (KResult.pass, { s with count := s.count + 1 })
  else
    (KResult.fail, s)

/-- Modelled from the spec: `take(sem, 0)` (zero block time) decrements
if `count > 0` else fails immediately. -/
def semTakeZero (s : CountingSem) : KResult × CountingSem :=
  if 0 < s.count then
    (KResult.pass, { s with count := s.count - 1 })
  else
    (KResult.fail, s)

/-- An element of a give/take sequence driven at the semaphore. -/
inductive SemOp where
  | give
  | take
deriving DecidableEq, Repr

/-- Run a sequence of give / zero-timeout-take operations. -/
def runSemOps : List SemOp → CountingSem → CountingSem
  | [], s => s
  | SemOp.give :: rest, s => runSemOps rest (semGive s).2
  | SemOp.take :: rest, s => runSemOps rest (semTakeZero s).2

/-! ## Priority-inheritance mutex and scheduler (spec §4.1, §4.2)

Modelled from the spec: the kernel (tasks.c / queue.c) is not in the
source tree.  Tasks carry a base priority, an effective (possibly
inherited) priority, a state and the set of mutexes they hold (§3 data
model).  A mutex has an owner and a waiter queue.  `take` on an owned
mutex with zero timeout fails immediately; with a nonzero timeout the
caller blocks and the owner inherits the caller's effective priority if
it is higher.  `give` by a non-owner fails; on release, ownership
transfers to the highest-effective-priority waiter, and the giver's
effective priority reverts to its base priority only once it holds no
further mutex (per §4.2 edge cases (a)/(b): releasing a mutex while
still holding another retains the inherited priority). -/

abbrev TaskId := Nat

abbrev MutexId := Nat

/-- Task states (§4.1): a blocked task records the mutex it waits on. -/
inductive TState where
  | ready
  | running
  | blocked (m : MutexId)
  | suspended
deriving DecidableEq, Repr

structure Task where
  basePrio : Nat
  effPrio : Nat
  st : TState
  held : List MutexId
deriving DecidableEq, Repr

structure Mutex where
  owner : Option TaskId
  waiters : List TaskId
deriving DecidableEq, Repr

/-- Kernel-wide state: the task registry and the mutex table.  `numTasks`
bounds the identifiers the scheduler scans. -/
structure Kernel where
  numTasks : Nat
  tasks : TaskId → Task
  mutexes : MutexId → Mutex

def runnable : TState → Bool
  | TState.ready => true
  | TState.running => true
  | _ => false

/-- Outcome of a `take` call: acquired immediately, failed immediately
(zero timeout) or entered the Blocked state to wait. -/
inductive TakeRes where
  | acquired
  | failed
  | blockedWait
deriving DecidableEq, Repr

/-- Modelled from the spec: `take(mutex, timeout)` (§4.2).  Unowned:
caller becomes owner.  Owned with zero timeout: fails immediately.
Owned with nonzero timeout: the caller blocks, joins the waiter queue,
and the owner's effective priority is raised to the caller's if that is
higher (priority inheritance). -/
def mutexTake (k : Kernel) (t : TaskId) (m : MutexId) (timeout : Nat) :
    TakeRes × Kernel :=
  match (k.mutexes m).owner with
  | none =>
    (TakeRes.acquired,
      { k with
        tasks := fun i =>
          if i = t then { k.tasks t with held := m :: (k.tasks t).held }
          else k.tasks i,
        mutexes := fun j =>
          if j = m then { k.mutexes m with owner := some t } else k.mutexes j })
  | some o =>
    if timeout = 0 then (TakeRes.failed, k)
    else
      (TakeRes.blockedWait,
        { k with
          tasks := fun i =>
            if i = t then { k.tasks t with st := TState.blocked m }
            else if i = o then
              { k.tasks o with
                effPrio := max (k.tasks o).effPrio (k.tasks t).effPrio }
            else k.tasks i,
          mutexes := fun j =>
            if j = m then
              { k.mutexes m with waiters := (k.mutexes m).waiters ++ [t] }
            else k.mutexes j })

/-- The highest-effective-priority waiter; ties are broken by wait order
(the earlier waiter wins), per §5 ordering guarantees. -/
def bestWaiter (k : Kernel) : List TaskId → Option TaskId
  | [] => none
  | w :: ws =>
    match bestWaiter k ws with
    | none => some w
    | some b =>
      if (k.tasks b).effPrio > (k.tasks w).effPrio then some b else some w

/-- Modelled from the spec: `give(mutex)` (§4.2).  Fails if the caller is
not the owner.  On release, ownership transfers to the highest-
effective-priority waiter (who becomes Ready); the giver disinherits —
reverting to its base priority — only when it no longer holds any mutex,
otherwise it retains its current effective priority (edge cases (a)/(b):
releasing one of several held mutexes must not drop the inherited
priority). -/
def mutexGive (k : Kernel) (t : TaskId) (m : MutexId) : KResult × Kernel :=
  if (k.mutexes m).owner = some t then
    let heldAfter := ((k.tasks t).held).erase m
    let newEff :=
      if heldAfter.isEmpty then (k.tasks t).basePrio else (k.tasks t).effPrio
    match bestWaiter k (k.mutexes m).waiters with
    | none =>
      (KResult.pass,
        { k with
          tasks := fun i =>
            if i = t then { k.tasks t with held := heldAfter, effPrio := newEff }
            else k.tasks i,
          mutexes := fun j =>
            if j = m then { k.mutexes m with owner := none } else k.mutexes j })
    | some w =>
      (KResult.pass,
        { k with
          tasks := fun i =>
            if i = t then { k.tasks t with held := heldAfter, effPrio := newEff }
            else if i = w then
              { k.tasks w with st := TState.ready, held := m :: (k.tasks w).held }
            else k.tasks i,
          mutexes := fun j =>
            if j = m then
              { owner := some w, waiters := ((k.mutexes m).waiters).erase w }
            else k.mutexes j })
  else (KResult.fail, k)

/-- `vTaskResume`: a Suspended task becomes Ready (§4.1). -/
def taskResume (k : Kernel) (t : TaskId) : Kernel :=
  if (k.tasks t).st = TState.suspended then
    { k with
      tasks := fun i =>
        if i = t then { k.tasks t with st := TState.ready } else k.tasks i }
  else k

/-- `vTaskSuspend`: the task enters the Suspended state (§4.1). -/
def taskSuspend (k : Kernel) (t : TaskId) : Kernel :=
  { k with
    tasks := fun i =>
      if i = t then { k.tasks t with st := TState.suspended } else k.tasks i }

/-- The runnable task of highest effective priority (lowest id wins
ties). -/
def bestReady (k : Kernel) : Option TaskId :=
  (List.range k.numTasks).foldl
    (fun best i =>
      if runnable (k.tasks i).st then
        match best with
        | none => some i
        | some b =>
          if (k.tasks i).effPrio > (k.tasks b).effPrio then some i else some b
      else best)
    none

/-- The scheduler picks the highest-effective-priority runnable task as
Running; a previously Running task that loses the processor becomes
Ready (§4.1). -/
def schedule (k : Kernel) : Kernel :=
  match bestReady k with
  | none => k
  | some r =>
    { k with
      tasks := fun i =>
        if i = r then { k.tasks r with st := TState.running }
        else if (k.tasks i).st = TState.running then
          { k.tasks i with st := TState.ready }
        else k.tasks i }

/-! ### The concrete master/slave inheritance scenario

IntSemTest.c drives this scenario: the master task (id 0, priority
`intsemMASTER_PRIORITY` = 0) holds the shared mutex when the slave task
(id 1, priority `intsemSLAVE_PRIORITY` = 1) is resumed and blocks on it,
so the master inherits priority 1; after the master gives the mutex the
slave acquires it, gives it back and suspends itself, and the master is
back at priority 0. -/

/-- Initial state: task 0 (master, base priority 0) Running, task 1
(slave, base priority 1) Suspended, mutex 0 free. -/
def c2Init : Kernel :=
  { numTasks := 2,
    tasks := fun i =>
      if i = 0 then { basePrio := 0, effPrio := 0, st := TState.running, held := [] }
      else { basePrio := 1, effPrio := 1, st := TState.suspended, held := [] },
    mutexes := fun _ => { owner := none, waiters := [] } }

/-- Master takes the shared mutex with zero block time. -/
def c2AfterTake : Kernel := (mutexTake c2Init 0 0 0).2

/-- Slave is resumed; being higher priority it preempts the master. -/
def c2AfterResume : Kernel := schedule (taskResume c2AfterTake 1)

/-- Slave tries to take the held mutex with `portMAX_DELAY` and blocks;
the master inherits its priority and runs again. -/
def c2AfterBlock : Kernel := schedule (mutexTake c2AfterResume 1 0 1000).2

/-- Master gives the mutex back: the slave acquires it, is readied, and
preempts. -/
def c2AfterGive : Kernel := schedule (mutexGive c2AfterBlock 0 0).2

/-- Slave gives the mutex back. -/
def c2AfterSlaveGive : Kernel := (mutexGive c2AfterGive 1 0).2

/-- Slave suspends itself; the master runs again. -/
def c2Final : Kernel := schedule (taskSuspend c2AfterSlaveGive 1)

/-- A concrete state for the disinheritance theorem: task 0 holds
mutexes 0 and 1 at inherited priority 5 (task 1, priority 5, waits on
mutex 0). -/
def c1State : Kernel :=
  { numTasks := 2,
    tasks := fun i =>
      if i = 0 then { basePrio := 0, effPrio := 5, st := TState.running, held := [0, 1] }
      else { basePrio := 5, effPrio := 5, st := TState.blocked 0, held := [] },
    mutexes := fun j =>
      if j = 0 then { owner := some 0, waiters := [1] }
      else if j = 1 then { owner := some 0, waiters := [] }
      else { owner := none, waiters := [] } }

/-! ### Mutual exclusion over arbitrary take/give sequences -/

/-- The mutex-subsystem consistency invariant: a mutex is in a task's
held set exactly when that task is recorded as the owner; held sets and
waiter queues have no duplicates; and every queued waiter is Blocked on
that very mutex. -/
structure Inv (k : Kernel) : Prop where
  consistent : ∀ m t, m ∈ (k.tasks t).held ↔ (k.mutexes m).owner = some t
  heldNodup : ∀ t, ((k.tasks t).held).Nodup
  waitersBlocked : ∀ m w, w ∈ (k.mutexes m).waiters → (k.tasks w).st = TState.blocked m
  waitersNodup : ∀ m, ((k.mutexes m).waiters).Nodup

/-- One step taken by an arbitrary client task against the mutex
subsystem: a take (with a chosen timeout) or a give.  A call by a task
that is not runnable (a Blocked or Suspended task cannot execute code)
leaves the state unchanged. -/
inductive MuxOp where
  | take (t : TaskId) (m : MutexId) (timeout : Nat)
  | give (t : TaskId) (m : MutexId)
deriving DecidableEq, Repr

def runMuxOps : List MuxOp → Kernel → Kernel
  | [], k => k
  | MuxOp.take t m timeout :: rest, k =>
    runMuxOps rest
      (if runnable (k.tasks t).st then (mutexTake k t m timeout).2 else k)
  | MuxOp.give t m :: rest, k =>
    runMuxOps rest
      (if runnable (k.tasks t).st then (mutexGive k t m).2 else k)

/-- A consistent two-task initial state with all mutexes free. -/
def c3Init : Kernel :=
  { numTasks := 2,
    tasks := fun _ => { basePrio := 0, effPrio := 0, st := TState.ready, held := [] },
    mutexes := fun _ => { owner := none, waiters := [] } }

/-! ## Software timer service (spec §4.4)

Modelled from the spec: timers.c is not in the source tree.  A timer has
a period, an auto-reload flag, an active flag and a next-expiry
deadline.  `fires` counts callback invocations (the demo's
`ucAutoReloadTimerCounters` / `ucOneShotTimerCounter`), and
`stopRequested` models the demo callback behaviour driven by
`ucIsStopNeededInTimerZeroCallback` (TimerDemo.c): when set, the next
callback invocation stops its own timer and clears the flag. -/
structure Timer where
  period : Nat
  autoReload : Bool
  active : Bool
  deadline : Nat
  fires : Nat
  stopRequested : Bool
deriving DecidableEq, Repr

/-- `xTimerIsTimerActive`. -/
def xTimerIsTimerActive (t : Timer) : Bool := t.active

/-- Modelled from the spec: the service-task expiry pass (§4.4 service
loop).  While the timer is active and its deadline has passed, the
callback runs once per elapsed period; an auto-reload timer re-arms by
`deadline + period` (possibly repeatedly when backlogged), a one-shot
timer goes dormant after the first fire, and a callback that stops its
own timer takes effect immediately, aborting further catch-up re-arms
in the same pass. -/
def processExpired (now : Nat) (t : Timer) : Timer :=
  if h : t.active = true ∧ t.period ≠ 0 ∧ t.deadline ≤ now then
    if t.stopRequested then
      { t with fires := t.fires + 1, active := false, stopRequested := false }
    else if t.autoReload then
      processExpired now
        { t with fires := t.fires + 1, deadline := t.deadline + t.period }
    else
      { t with fires := t.fires + 1, active := false }
  else t
termination_by now + 1 - t.deadline
decreasing_by
  obtain ⟨_, h2, h3⟩ := h
  omega

/-- A concrete backlogged timer: period 1 tick, deadline 3, stop
requested by the callback. -/
def backlogTimer : Timer :=
  { period := 1, autoReload := true, active := true, deadline := 3,
    fires := 0, stopRequested := true }

/-- Modelled from the spec: the service task processing a start/reset
command (§4.4): the timer is armed at the deadline computed when the
command was issued (`issue time + period`), and the service then
immediately processes any expiry that has already passed. -/
def processResetCommand (now cmdDeadline : Nat) (t : Timer) : Timer :=
  processExpired now { t with active := true, deadline := cmdDeadline }

/-- A concrete one-shot timer for the late-reset witness. -/
def lateResetTimer : Timer :=
  { period := 1, autoReload := false, active := false, deadline := 7,
    fires := 0, stopRequested := false }

/-- A concrete running auto-reload timer for the expire-rate witness:
period 2, next deadline 5, observed from tick 4 over 6 ticks. -/
def reloadTimer : Timer :=
  { period := 2, autoReload := true, active := true, deadline := 5,
    fires := 0, stopRequested := false }

/-! ## Interrupt-context mutex give (spec §4.2 / §9 design note)

Modelled from the spec: the ISR give path (queue.c) is absent from the
source tree.  The demo mutex is a single-slot queue; a give from
interrupt context succeeds only when no give is already queued (the
mutex is outstanding) and otherwise fails immediately via its return
code — it can never block. -/

/-- The one relevant piece of ISR-give state: whether a give is already
queued in the single slot. -/
def giveFromISR (pending : Bool) : KResult × Bool :=
  if pending then (KResult.fail, pending) else (KResult.pass, true)

/-! ## Recursive mutex (spec §4.2, glossary)

Modelled from the spec: `xSemaphoreTakeRecursive` /
`xSemaphoreGiveRecursive` (queue.c absent from the source tree).  The
owner may re-take, incrementing a depth; each give decrements it and
the mutex is released only at depth zero; a give by a non-owner
fails. -/
structure RecMutex where
  owner : Option TaskId
  depth : Nat
deriving DecidableEq, Repr

def takeRecursive (t : TaskId) (m : RecMutex) : KResult × RecMutex :=
  match m.owner with
  | none => (KResult.pass, { owner := some t, depth := 1 })
  | some o =>
    if o = t then (KResult.pass, { m with depth := m.depth + 1 })
    else (KResult.fail, m)

def giveRecursive (t : TaskId) (m : RecMutex) : KResult × RecMutex :=
  if m.owner = some t then
    if m.depth ≤ 1 then (KResult.pass, { owner := none, depth := 0 })
    else (KResult.pass, { m with depth := m.depth - 1 })
  else (KResult.fail, m)

/-- `n` successive takes by task `t`. -/
def takeRecN (t : TaskId) : Nat → RecMutex → RecMutex
  | 0, m => m
  | n + 1, m => takeRecN t n (takeRecursive t m).2

/-- `n` successive gives by task `t`. -/
def giveRecN (t : TaskId) : Nat → RecMutex → RecMutex
  | 0, m => m
  | n + 1, m => giveRecN t n (giveRecursive t m).2

/-- All of the next `n` gives by `t` return `pass`. -/
def givesAllPass (t : TaskId) : Nat → RecMutex → Prop
  | 0, _ => True
  | n + 1, m =>
    (giveRecursive t m).1 = KResult.pass ∧
    givesAllPass t n (giveRecursive t m).2

/-! ## Timer start before the scheduler is running (TimerDemo.c test 1)

Modelled from the spec: timers.c is absent from the source tree.  The
timer service owns a bounded command queue (§4.4, §7 resource
exhaustion); `xTimerStart` enqueues a start command, blocking up to the
given time when the queue is full — but before the scheduler has been
started the block time is forced to zero, so the call returns at once:
`pass` while the queue has space, `fail` once it already holds
`configTIMER_QUEUE_LENGTH` unprocessed commands. -/

/-- Result of a queue send: it may also have to wait when a nonzero
block time is permitted. -/
inductive SendRes where
  | pass
  | fail
  | blockedWait
deriving DecidableEq, Repr

/-- Send a command to the bounded timer command queue with the given
effective block time. -/
def queueSendCmd (capacity : Nat) (q : List Nat) (cmd : Nat)
    (effBlock : Nat) : SendRes × List Nat :=
  if q.length < capacity then (SendRes.pass, q ++ [cmd])
  else if effBlock = 0 then (SendRes.fail, q)
  else (SendRes.blockedWait, q)

/-- `xTimerStart` before the scheduler is started: the requested block
time is replaced by zero inside the timer API. -/
def xTimerStartPreScheduler (capacity : Nat) (q : List Nat) (cmd : Nat)
    (_blockTime : Nat) : SendRes × List Nat :=
  queueSendCmd capacity q cmd 0

theorem semGive_bound (s : CountingSem) (h : s.count ≤ s.maxCount) :
    (semGive s).2.count ≤ (semGive s).2.maxCount := by
  unfold semGive
  split <;> simp_all
  omega

theorem semTakeZero_bound (s : CountingSem) (h : s.count ≤ s.maxCount) :
    (semTakeZero s).2.count ≤ (semTakeZero s).2.maxCount := by
  unfold semTakeZero
  split <;> simp_all
  omega

theorem runSemOps_bound (ops : List SemOp) (s : CountingSem)
    (h : s.count ≤ s.maxCount) :
    (runSemOps ops s).count ≤ (runSemOps ops s).maxCount := by
  induction ops generalizing s with
  | nil => exact h
  | cons op rest ih =>
    cases op with
    | give => exact ih _ (semGive_bound s h)
    | take => exact ih _ (semTakeZero_bound s h)

theorem runSemOps_maxCount (ops : List SemOp) (s : CountingSem) :
    (runSemOps ops s).maxCount = s.maxCount := by
  induction ops generalizing s with
  | nil => rfl
  | cons op rest ih =>
    cases op with
    | give =>
      rw [runSemOps, ih]
      unfold semGive
      split <;> rfl
    | take =>
      rw [runSemOps, ih]
      unfold semTakeZero
      split <;> rfl

/-- C4: for a counting semaphore created with maximum count `max`, after
every sequence of give / zero-timeout-take operations the count stays in
`[0, max]` (it is a `Nat`, so `0 ≤ count` is inherent); at any reachable
state, give fails and leaves the count unchanged when `count = max` and
otherwise succeeds incrementing it by one, and take with zero timeout
fails and leaves the count unchanged when `count = 0` and otherwise
succeeds decrementing it by one. -/
theorem counting_semaphore_bounds (ops : List SemOp) (maxc init : Nat)
    (hinit : init ≤ maxc) :
    (runSemOps ops ⟨maxc, init⟩).count ≤ maxc ∧
    ((runSemOps ops ⟨maxc, init⟩).count = maxc →
      semGive (runSemOps ops ⟨maxc, init⟩) =
        (KResult.fail, runSemOps ops ⟨maxc, init⟩)) ∧
    ((runSemOps ops ⟨maxc, init⟩).count < maxc →
      (semGive (runSemOps ops ⟨maxc, init⟩)).1 = KResult.pass ∧
      (semGive (runSemOps ops ⟨maxc, init⟩)).2.count =
        (runSemOps ops ⟨maxc, init⟩).count + 1) ∧
    ((runSemOps ops ⟨maxc, init⟩).count = 0 →
      semTakeZero (runSemOps ops ⟨maxc, init⟩) =
        (KResult.fail, runSemOps ops ⟨maxc, init⟩)) ∧
    (0 < (runSemOps ops ⟨maxc, init⟩).count →
      (semTakeZero (runSemOps ops ⟨maxc, init⟩)).1 = KResult.pass ∧
      (semTakeZero (runSemOps ops ⟨maxc, init⟩)).2.count =
        (runSemOps ops ⟨maxc, init⟩).count - 1) := by
  have hmax : (runSemOps ops ⟨maxc, init⟩).maxCount = maxc :=
    runSemOps_maxCount ops ⟨maxc, init⟩
  have hbound : (runSemOps ops ⟨maxc, init⟩).count ≤
      (runSemOps ops ⟨maxc, init⟩).maxCount :=
    runSemOps_bound ops ⟨maxc, init⟩ hinit
  refine ⟨by omega, ?_, ?_, ?_, ?_⟩
  · intro hfull
    unfold semGive
    rw [if_neg]
    omega
  · intro hlt
    unfold semGive
    rw [if_pos]
    · exact ⟨rfl, rfl⟩
    · omega
  · intro hzero
    unfold semTakeZero
    rw [if_neg]
    omega
  · intro hpos
    unfold semTakeZero
    rw [if_pos hpos]
    exact ⟨rfl, rfl⟩

/-- Witness for `counting_semaphore_bounds`: the concrete scenario the
spec names (max = 3, initial 0, three gives). -/
theorem counting_semaphore_bounds_witness :
    (0 : Nat) ≤ 3 ∧
    ((runSemOps [SemOp.give, SemOp.give, SemOp.give] ⟨3, 0⟩).count ≤ 3 ∧
      ((runSemOps [SemOp.give, SemOp.give, SemOp.give] ⟨3, 0⟩).count = 3 →
        semGive (runSemOps [SemOp.give, SemOp.give, SemOp.give] ⟨3, 0⟩) =
          (KResult.fail, runSemOps [SemOp.give, SemOp.give, SemOp.give] ⟨3, 0⟩)) ∧
      ((runSemOps [SemOp.give, SemOp.give, SemOp.give] ⟨3, 0⟩).count < 3 →
        (semGive (runSemOps [SemOp.give, SemOp.give, SemOp.give] ⟨3, 0⟩)).1 = KResult.pass ∧
        (semGive (runSemOps [SemOp.give, SemOp.give, SemOp.give] ⟨3, 0⟩)).2.count =
          (runSemOps [SemOp.give, SemOp.give, SemOp.give] ⟨3, 0⟩).count + 1) ∧
      ((runSemOps [SemOp.give, SemOp.give, SemOp.give] ⟨3, 0⟩).count = 0 →
        semTakeZero (runSemOps [SemOp.give, SemOp.give, SemOp.give] ⟨3, 0⟩) =
          (KResult.fail, runSemOps [SemOp.give, SemOp.give, SemOp.give] ⟨3, 0⟩)) ∧
      (0 < (runSemOps [SemOp.give, SemOp.give, SemOp.give] ⟨3, 0⟩).count →
        (semTakeZero (runSemOps [SemOp.give, SemOp.give, SemOp.give] ⟨3, 0⟩)).1 = KResult.pass ∧
        (semTakeZero (runSemOps [SemOp.give, SemOp.give, SemOp.give] ⟨3, 0⟩)).2.count =
          (runSemOps [SemOp.give, SemOp.give, SemOp.give] ⟨3, 0⟩).count - 1)) :=
  ⟨by decide, counting_semaphore_bounds [SemOp.give, SemOp.give, SemOp.give] 3 0 (by decide)⟩

/-- C2: in the master/slave scenario, the master's zero-timeout take
succeeds; while the slave is Blocked on the mutex the master's
effective priority (what `uxTaskPriorityGet` reports) is 1; the
master's give succeeds and transfers ownership to the slave; the
slave's give back succeeds; and at the end the master is Running at
effective priority 0 with the slave Suspended. -/
theorem master_slave_priority_scenario :
    (mutexTake c2Init 0 0 0).1 = TakeRes.acquired ∧
    (c2AfterBlock.tasks 0).effPrio = 1 ∧
    (c2AfterBlock.tasks 0).st = TState.running ∧
    (c2AfterBlock.tasks 1).st = TState.blocked 0 ∧
    (mutexGive c2AfterBlock 0 0).1 = KResult.pass ∧
    (c2AfterGive.mutexes 0).owner = some 1 ∧
    (mutexGive c2AfterGive 1 0).1 = KResult.pass ∧
    (c2Final.tasks 0).effPrio = 0 ∧
    (c2Final.tasks 0).st = TState.running ∧
    (c2Final.tasks 1).st = TState.suspended := by
  decide

/-! ### Disinheritance with multiple held mutexes -/

/-- A successful `give` seen from the giver: the call passes, the giver's
record keeps its base priority and state, drops the mutex from its held
list, and disinherits (reverts to base priority) exactly when no held
mutex remains; mutexes other than the given one are untouched. -/
theorem mutexGive_res (k : Kernel) (t : TaskId) (m : MutexId)
    (h : (k.mutexes m).owner = some t) :
    (mutexGive k t m).1 = KResult.pass ∧
    ((mutexGive k t m).2).tasks t =
      { k.tasks t with
        held := ((k.tasks t).held).erase m,
        effPrio :=
          if (((k.tasks t).held).erase m).isEmpty then (k.tasks t).basePrio
          else (k.tasks t).effPrio } ∧
    ∀ j, j ≠ m → ((mutexGive k t m).2).mutexes j = k.mutexes j := by
  unfold mutexGive
  rw [if_pos h]
  cases hbw : bestWaiter k (k.mutexes m).waiters with
  | none => exact ⟨rfl, by simp, fun j hj => by simp [hj]⟩
  | some w => exact ⟨rfl, by simp, fun j hj => by simp [hj]⟩

/-- C1: a task holding two priority-inheritance mutexes at an inherited
effective priority keeps that inherited priority when it gives back one
mutex while still holding the other, and reverts to its base priority
when it gives back the last one; the held list `[a, b]` or `[b, a]`
covers both acquisition orders, and the universally quantified `a`, `b`
cover both release orders. -/
theorem disinheritance_two_mutexes (k : Kernel) (t : TaskId) (a b : MutexId)
    (hab : a ≠ b)
    (ha : (k.mutexes a).owner = some t)
    (hb : (k.mutexes b).owner = some t)
    (hheld : (k.tasks t).held = [a, b] ∨ (k.tasks t).held = [b, a])
    (_hinh : (k.tasks t).basePrio < (k.tasks t).effPrio) :
    (mutexGive k t a).1 = KResult.pass ∧
    (((mutexGive k t a).2).tasks t).effPrio = (k.tasks t).effPrio ∧
    (mutexGive (mutexGive k t a).2 t b).1 = KResult.pass ∧
    (((mutexGive (mutexGive k t a).2 t b).2).tasks t).effPrio =
      (k.tasks t).basePrio := by
  have herase : ((k.tasks t).held).erase a = [b] := by
    rcases hheld with hh | hh <;>
      simp [hh, List.erase_cons, Ne.symm hab]
  obtain ⟨hres1, htask1, hmux1⟩ := mutexGive_res k t a ha
  have hb1 : (((mutexGive k t a).2).mutexes b).owner = some t := by
    rw [hmux1 b (Ne.symm hab)]
    exact hb
  obtain ⟨hres2, htask2, _⟩ := mutexGive_res (mutexGive k t a).2 t b hb1
  have heff1 : (((mutexGive k t a).2).tasks t).effPrio = (k.tasks t).effPrio := by
    rw [htask1]
    simp [herase]
  refine ⟨hres1, heff1, hres2, ?_⟩
  rw [htask2]
  have hheld1 : (((mutexGive k t a).2).tasks t).held = [b] := by
    rw [htask1]
    simpa using herase
  have hbase1 : (((mutexGive k t a).2).tasks t).basePrio = (k.tasks t).basePrio := by
    rw [htask1]
  simp [hheld1, hbase1]

/-- Witness for `disinheritance_two_mutexes` at the concrete state
`c1State`. -/
theorem disinheritance_two_mutexes_witness :
    ((0 : MutexId) ≠ 1 ∧
      (c1State.mutexes 0).owner = some 0 ∧
      (c1State.mutexes 1).owner = some 0 ∧
      ((c1State.tasks 0).held = [0, 1] ∨ (c1State.tasks 0).held = [1, 0]) ∧
      (c1State.tasks 0).basePrio < (c1State.tasks 0).effPrio) ∧
    ((mutexGive c1State 0 0).1 = KResult.pass ∧
      (((mutexGive c1State 0 0).2).tasks 0).effPrio = (c1State.tasks 0).effPrio ∧
      (mutexGive (mutexGive c1State 0 0).2 0 1).1 = KResult.pass ∧
      (((mutexGive (mutexGive c1State 0 0).2 0 1).2).tasks 0).effPrio =
        (c1State.tasks 0).basePrio) :=
  ⟨⟨by decide, by decide, by decide, Or.inl (by decide), by decide⟩,
    disinheritance_two_mutexes c1State 0 0 1 (by decide) (by decide) (by decide)
      (Or.inl (by decide)) (by decide)⟩

theorem runnable_not_waiter (k : Kernel) (t : TaskId) (hk : Inv k)
    (hrun : runnable (k.tasks t).st = true) :
    ∀ m, t ∉ (k.mutexes m).waiters := by
  intro m hmem
  have hb := hk.waitersBlocked m t hmem
  rw [hb] at hrun
  simp [runnable] at hrun

theorem mutexTake_inv (k : Kernel) (t : TaskId) (m : MutexId) (timeout : Nat)
    (hk : Inv k) (hrun : runnable (k.tasks t).st = true) :
    Inv (mutexTake k t m timeout).2 := by
  unfold mutexTake
  cases ho : (k.mutexes m).owner with
  | none =>
    have hnotheld : ∀ t', m ∉ (k.tasks t').held := by
      intro t' hmem
      have hc := (hk.consistent m t').mp hmem
      rw [ho] at hc
      exact Option.noConfusion hc
    refine ⟨?_, ?_, ?_, ?_⟩
    · intro m' t'
      by_cases ht : t' = t
      · by_cases hm : m' = m
        · simp [ht, hm]
        · simp [ht, hm, hk.consistent m' t]
      · by_cases hm : m' = m
        · simp only [ht, hm, if_neg, if_pos, ite_true, ite_false]
          simp [ht, hm]
          constructor
          · intro hmem
            exact absurd hmem (hnotheld t')
          · intro heq
            exact absurd heq.symm ht
        · simp [ht, hm, hk.consistent m' t']
    · intro t'
      by_cases ht : t' = t
      · simp [ht]
        exact ⟨hnotheld t, hk.heldNodup t⟩
      · simp [ht]
        exact hk.heldNodup t'
    · intro m' w
      by_cases hm : m' = m
      · simp [hm]
        intro hmem
        have hb := hk.waitersBlocked m w hmem
        by_cases hw : w = t
        · rw [hw] at hb
          rw [hb] at hrun
          simp [runnable] at hrun
        · simp [hw, hb]
      · simp [hm]
        intro hmem
        have hb := hk.waitersBlocked m' w hmem
        by_cases hw : w = t
        · rw [hw] at hb
          rw [hb] at hrun
          simp [runnable] at hrun
        · simp [hw, hb]
    · intro m'
      by_cases hm : m' = m
      · simp [hm]
        exact hk.waitersNodup m
      · simp [hm]
        exact hk.waitersNodup m'
  | some o =>
    by_cases hto : timeout = 0
    · simpa [hto] using hk
    · have htw := runnable_not_waiter k t hk hrun
      refine ⟨?_, ?_, ?_, ?_⟩
      · intro m' t'
        by_cases ht : t' = t
        · by_cases hm : m' = m
          · simp [hto, ht, hm, hk.consistent m t]
          · simp [hto, ht, hm, hk.consistent m' t]
        · by_cases hoo : t' = o
          · have hot : ¬o = t := fun h => ht (hoo.trans h)
            by_cases hm : m' = m
            · simp [hto, ht, hoo, hot, hm, hk.consistent m o]
            · simp [hto, ht, hoo, hot, hm, hk.consistent m' o]
          · by_cases hm : m' = m
            · simp [hto, ht, hoo, hm, hk.consistent m t']
            · simp [hto, ht, hoo, hm, hk.consistent m' t']
      · intro t'
        by_cases ht : t' = t
        · simp [hto, ht]
          exact hk.heldNodup t
        · by_cases hoo : t' = o
          · have hot : ¬o = t := fun h => ht (hoo.trans h)
            simp [hto, ht, hoo, hot]
            exact hk.heldNodup o
          · simp [hto, ht, hoo]
            exact hk.heldNodup t'
      · intro m' w
        by_cases hm : m' = m
        · simp [hto, hm]
          intro hmem
          rcases hmem with hmem | hmem
          · have hb := hk.waitersBlocked m w hmem
            have hwt : w ≠ t := by
              intro hwt
              rw [hwt] at hmem
              exact htw m hmem
            by_cases hwo : w = o
            · have hot : ¬o = t := fun h => hwt (hwo.trans h)
              simp [hwt, hwo, hot]
              rw [hwo] at hb
              exact hb
            · simp [hwt, hwo, hb]
          · simp [hmem]
        · simp [hto, hm]
          intro hmem
          have hb := hk.waitersBlocked m' w hmem
          have hwt : w ≠ t := by
            intro hwt
            rw [hwt] at hmem
            exact htw m' hmem
          by_cases hwo : w = o
          · have hot : ¬o = t := fun h => hwt (hwo.trans h)
            simp [hwt, hwo, hot]
            rw [hwo] at hb
            exact hb
          · simp [hwt, hwo, hb]
      · intro m'
        by_cases hm : m' = m
        · simp [hto, hm, List.nodup_append]
          exact ⟨hk.waitersNodup m, htw m⟩
        · simp [hto, hm]
          exact hk.waitersNodup m'

theorem bestWaiter_mem (k : Kernel) :
    ∀ (ws : List TaskId) (w : TaskId), bestWaiter k ws = some w → w ∈ ws := by
  intro ws
  induction ws with
  | nil =>
    intro w h
    simp [bestWaiter] at h
  | cons x xs ih =>
    intro w h
    simp only [bestWaiter] at h
    cases hb : bestWaiter k xs with
    | none =>
      rw [hb] at h
      simp at h
      simp [h]
    | some b =>
      rw [hb] at h
      by_cases hp : (k.tasks b).effPrio > (k.tasks x).effPrio
      · have h2 : b = w := by simpa [hp] using h
        rw [← h2]
        exact List.mem_cons_of_mem x (ih b hb)
      · have h2 : x = w := by simpa [hp] using h
        rw [← h2]
        exact List.mem_cons_self x xs

theorem mutexGive_inv (k : Kernel) (t : TaskId) (m : MutexId)
    (hk : Inv k) (hrun : runnable (k.tasks t).st = true) :
    Inv (mutexGive k t m).2 := by
  unfold mutexGive
  by_cases ho : (k.mutexes m).owner = some t
  · rw [if_pos ho]
    have htw := runnable_not_waiter k t hk hrun
    have hmt : m ∈ (k.tasks t).held := (hk.consistent m t).mpr ho
    cases hbw : bestWaiter k (k.mutexes m).waiters with
    | none =>
      refine ⟨?_, ?_, ?_, ?_⟩
      · intro m' t'
        by_cases hm : m' = m
        · by_cases ht : t' = t
          · simp [hm, ht, (hk.heldNodup t).not_mem_erase]
          · simp [hm, ht]
            intro hmem
            have hc := (hk.consistent m t').mp hmem
            rw [ho] at hc
            exact ht (Option.some.inj hc.symm)
        · by_cases ht : t' = t
          · simp [hm, ht, List.mem_erase_of_ne hm, hk.consistent m' t]
          · simp [hm, ht, hk.consistent m' t']
      · intro t'
        by_cases ht : t' = t
        · simp [ht]
          exact (hk.heldNodup t).erase m
        · simp [ht]
          exact hk.heldNodup t'
      · intro m' w'
        by_cases hm : m' = m
        · simp [hm]
          intro hmem
          have hb := hk.waitersBlocked m w' hmem
          by_cases hw : w' = t
          · rw [hw] at hmem
            exact absurd hmem (htw m)
          · simp [hw, hb]
        · simp [hm]
          intro hmem
          have hb := hk.waitersBlocked m' w' hmem
          by_cases hw : w' = t
          · rw [hw] at hmem
            exact absurd hmem (htw m')
          · simp [hw, hb]
      · intro m'
        by_cases hm : m' = m
        · simp [hm]
          exact hk.waitersNodup m
        · simp [hm]
          exact hk.waitersNodup m'
    | some w =>
      have hwmem : w ∈ (k.mutexes m).waiters := bestWaiter_mem k _ w hbw
      have hwst : (k.tasks w).st = TState.blocked m := hk.waitersBlocked m w hwmem
      have hwt : w ≠ t := by
        intro hwt
        rw [hwt] at hwmem
        exact htw m hwmem
      have hmw : m ∉ (k.tasks w).held := by
        intro hmem
        have hc := (hk.consistent m w).mp hmem
        rw [ho] at hc
        exact hwt (Option.some.inj hc.symm)
      refine ⟨?_, ?_, ?_, ?_⟩
      · intro m' t'
        by_cases hm : m' = m
        · by_cases ht : t' = t
          · simp [hm, ht, (hk.heldNodup t).not_mem_erase, hwt]
          · by_cases hw : t' = w
            · simp [hm, ht, hw, hwt]
            · simp [hm, ht, hw]
              constructor
              · intro hmem
                have hc := (hk.consistent m t').mp hmem
                rw [ho] at hc
                exact absurd (Option.some.inj hc).symm ht
              · intro hh
                exact absurd hh.symm hw
        · by_cases ht : t' = t
          · simp [hm, ht, List.mem_erase_of_ne hm, hk.consistent m' t]
          · by_cases hw : t' = w
            · simp [hm, ht, hw, hwt, hk.consistent m' w]
            · simp [hm, ht, hw, hk.consistent m' t']
      · intro t'
        by_cases ht : t' = t
        · simp [ht]
          exact (hk.heldNodup t).erase m
        · by_cases hw : t' = w
          · simp [ht, hw, hwt, List.nodup_cons]
            exact ⟨hmw, hk.heldNodup w⟩
          · simp [ht, hw]
            exact hk.heldNodup t'
      · intro m' w'
        by_cases hm : m' = m
        · simp [hm]
          intro hmem
          have hmem0 : w' ∈ (k.mutexes m).waiters := List.mem_of_mem_erase hmem
          have hb := hk.waitersBlocked m w' hmem0
          have hw't : w' ≠ t := by
            intro hh
            rw [hh] at hmem0
            exact htw m hmem0
          have hw'w : w' ≠ w := by
            intro hh
            rw [hh] at hmem
            exact (hk.waitersNodup m).not_mem_erase hmem
          simp [hw't, hw'w, hb]
        · simp [hm]
          intro hmem
          have hb := hk.waitersBlocked m' w' hmem
          have hw't : w' ≠ t := by
            intro hh
            rw [hh] at hmem
            exact htw m' hmem
          have hw'w : w' ≠ w := by
            intro hh
            rw [hh] at hb
            rw [hwst] at hb
            exact hm (TState.blocked.inj hb).symm
          simp [hw't, hw'w, hb]
      · intro m'
        by_cases hm : m' = m
        · simp [hm]
          exact (hk.waitersNodup m).erase w
        · simp [hm]
          exact hk.waitersNodup m'
  · rw [if_neg ho]
    exact hk

theorem runMuxOps_inv (ops : List MuxOp) (k : Kernel) (hk : Inv k) :
    Inv (runMuxOps ops k) := by
  induction ops generalizing k with
  | nil => exact hk
  | cons op rest ih =>
    cases op with
    | take t m timeout =>
      rw [runMuxOps]
      by_cases hrun : runnable (k.tasks t).st = true
      · rw [if_pos hrun]
        exact ih _ (mutexTake_inv k t m timeout hk hrun)
      · rw [if_neg hrun]
        exact ih _ hk
    | give t m =>
      rw [runMuxOps]
      by_cases hrun : runnable (k.tasks t).st = true
      · rw [if_pos hrun]
        exact ih _ (mutexGive_inv k t m hk hrun)
      · rw [if_neg hrun]
        exact ih _ hk

/-- C3: over every sequence of take/give operations starting from a
consistent state, at most one task holds the mutex at any reachable
state (two holders coincide), and a take with zero timeout issued while
the mutex is held returns `failed` — it neither acquires the mutex nor
blocks, leaving the kernel state unchanged. -/
theorem mutex_mutual_exclusion (ops : List MuxOp) (k0 : Kernel) (hk : Inv k0)
    (m : MutexId) (t1 t2 t : TaskId)
    (h1 : m ∈ ((runMuxOps ops k0).tasks t1).held)
    (h2 : m ∈ ((runMuxOps ops k0).tasks t2).held) :
    t1 = t2 ∧
    (mutexTake (runMuxOps ops k0) t m 0).1 = TakeRes.failed ∧
    (mutexTake (runMuxOps ops k0) t m 0).2 = runMuxOps ops k0 := by
  have hI := runMuxOps_inv ops k0 hk
  have ho1 := (hI.consistent m t1).mp h1
  have ho2 := (hI.consistent m t2).mp h2
  refine ⟨?_, ?_, ?_⟩
  · rw [ho1] at ho2
    exact Option.some.inj ho2
  · unfold mutexTake
    rw [ho1]
    simp
  · unfold mutexTake
    rw [ho1]
    simp

theorem c3Init_inv : Inv c3Init := by
  refine ⟨?_, ?_, ?_, ?_⟩ <;> simp [c3Init]

/-- Witness for `mutex_mutual_exclusion`: task 0 takes mutex 0 from the
initial state; task 1's zero-timeout take then fails. -/
theorem mutex_mutual_exclusion_witness :
    (Inv c3Init ∧
      0 ∈ ((runMuxOps [MuxOp.take 0 0 0] c3Init).tasks 0).held) ∧
    ((0 : TaskId) = 0 ∧
      (mutexTake (runMuxOps [MuxOp.take 0 0 0] c3Init) 1 0 0).1 = TakeRes.failed ∧
      (mutexTake (runMuxOps [MuxOp.take 0 0 0] c3Init) 1 0 0).2 =
        runMuxOps [MuxOp.take 0 0 0] c3Init) :=
  ⟨⟨c3Init_inv, by decide⟩,
    mutex_mutual_exclusion [MuxOp.take 0 0 0] c3Init c3Init_inv 0 0 0 1
      (by decide) (by decide)⟩

/-- C5: an active auto-reload 1-tick-period timer whose expiry is
backlogged by at least two periods, with a stop request armed in its
callback, fires exactly once during the catch-up pass — the stop takes
effect immediately, no second catch-up callback runs, and the timer then
reports inactive. -/
theorem stop_during_backlog (t : Timer) (now : Nat)
    (hact : t.active = true) (hstop : t.stopRequested = true)
    (hper : t.period ≠ 0) (hbacklog : t.deadline + t.period ≤ now) :
    processExpired now t =
      { t with fires := t.fires + 1, active := false, stopRequested := false } ∧
    xTimerIsTimerActive (processExpired now t) = false ∧
    (processExpired now t).fires = t.fires + 1 := by
  have hdn : t.deadline ≤ now := le_trans (Nat.le_add_right _ _) hbacklog
  unfold processExpired
  rw [dif_pos ⟨hact, hper, hdn⟩, if_pos hstop]
  exact ⟨rfl, rfl, rfl⟩

/-- Witness for `stop_during_backlog`: `backlogTimer` processed at tick
4 (two backlogged periods). -/
theorem stop_during_backlog_witness :
    (backlogTimer.active = true ∧
      backlogTimer.stopRequested = true ∧
      backlogTimer.period ≠ 0 ∧
      backlogTimer.deadline + backlogTimer.period ≤ 4) ∧
    (processExpired 4 backlogTimer =
      { backlogTimer with
        fires := backlogTimer.fires + 1
        active := false
        stopRequested := false } ∧
      xTimerIsTimerActive (processExpired 4 backlogTimer) = false ∧
      (processExpired 4 backlogTimer).fires = backlogTimer.fires + 1) :=
  ⟨⟨rfl, rfl, by decide, by decide⟩,
    stop_during_backlog backlogTimer 4 rfl rfl (by decide) (by decide)⟩

/-- C6: when the service task processes a reset of a one-shot timer only
after the deadline computed at command-issue time has passed, the timer
is handled as if processed on time: it is momentarily active (the armed
state before expiry processing is active), its callback fires exactly
once, and it is then dormant, so `xTimerIsTimerActive` reports false —
the request is neither dropped nor leaves the timer stale-active. -/
theorem late_reset_one_shot (t : Timer) (issueTime now : Nat)
    (hper : t.period ≠ 0) (har : t.autoReload = false)
    (hstop : t.stopRequested = false)
    (hlate : issueTime + t.period ≤ now) :
    ({ t with active := true, deadline := issueTime + t.period } : Timer).active
      = true ∧
    processResetCommand now (issueTime + t.period) t =
      { t with
        active := false
        deadline := issueTime + t.period
        fires := t.fires + 1 } ∧
    xTimerIsTimerActive (processResetCommand now (issueTime + t.period) t)
      = false ∧
    (processResetCommand now (issueTime + t.period) t).fires = t.fires + 1 := by
  have hmain : processResetCommand now (issueTime + t.period) t =
      { t with
        active := false
        deadline := issueTime + t.period
        fires := t.fires + 1 } := by
    unfold processResetCommand
    unfold processExpired
    rw [dif_pos ⟨rfl, hper, hlate⟩]
    rw [if_neg (by simp [hstop]), if_neg (by simp [har])]
  refine ⟨rfl, hmain, ?_, ?_⟩
  · rw [hmain]
    rfl
  · rw [hmain]

/-- Witness for `late_reset_one_shot`: reset issued at tick 5 with
period 1 (deadline 6), processed only at tick 8. -/
theorem late_reset_one_shot_witness :
    (lateResetTimer.period ≠ 0 ∧
      lateResetTimer.autoReload = false ∧
      lateResetTimer.stopRequested = false ∧
      5 + lateResetTimer.period ≤ 8) ∧
    (({ lateResetTimer with
        active := true
        deadline := 5 + lateResetTimer.period } : Timer).active = true ∧
      processResetCommand 8 (5 + lateResetTimer.period) lateResetTimer =
        { lateResetTimer with
          active := false
          deadline := 5 + lateResetTimer.period
          fires := lateResetTimer.fires + 1 } ∧
      xTimerIsTimerActive
        (processResetCommand 8 (5 + lateResetTimer.period) lateResetTimer)
        = false ∧
      (processResetCommand 8 (5 + lateResetTimer.period) lateResetTimer).fires
        = lateResetTimer.fires + 1) :=
  ⟨⟨by decide, rfl, rfl, by decide⟩,
    late_reset_one_shot lateResetTimer 5 8 (by decide) rfl rfl (by decide)⟩

/-- The exact number of catch-up fires of an active auto-reload timer:
if `j` whole extra periods fit between the deadline and `now`, the
expiry pass fires `j + 1` callbacks and re-arms the deadline past
`now`. -/
theorem processExpired_reload_count (now P : Nat) (hP : P ≠ 0) :
    ∀ (j : Nat) (t : Timer), t.period = P → t.active = true →
      t.stopRequested = false → t.autoReload = true →
      t.deadline + j * P ≤ now → now < t.deadline + (j + 1) * P →
      processExpired now t =
        { t with
          fires := t.fires + (j + 1)
          deadline := t.deadline + (j + 1) * P } := by
  intro j
  induction j with
  | zero =>
    intro t hper hact hstop har h1 h2
    have hdn : t.deadline ≤ now := by
      have e0 : (0 : Nat) * P = 0 := Nat.zero_mul P
      omega
    unfold processExpired
    rw [dif_pos ⟨hact, by rw [hper]; exact hP, hdn⟩]
    rw [if_neg (by simp [hstop]), if_pos har]
    unfold processExpired
    rw [dif_neg ?hcond]
    case hcond =>
      intro hcond
      obtain ⟨c1, c2, c3⟩ := hcond
      have e1 : (1 : Nat) * P = P := Nat.one_mul P
      rw [hper] at c3
      simp only at c3
      omega
    simp [hper, Timer.mk.injEq]
  | succ j ih =>
    intro t hper hact hstop har h1 h2
    have e1 : (j + 1) * P = j * P + P := Nat.succ_mul j P
    have e2 : (j + 1 + 1) * P = j * P + P + P := by
      rw [Nat.succ_mul, Nat.succ_mul]
    have hdn : t.deadline ≤ now := by
      rw [e1] at h1
      omega
    unfold processExpired
    rw [dif_pos ⟨hact, by rw [hper]; exact hP, hdn⟩]
    rw [if_neg (by simp [hstop]), if_pos har]
    have h1e : t.deadline + (j * P + P) ≤ now := by
      rw [← e1]
      exact h1
    have h2e : now < t.deadline + (j * P + P + P) := by
      rw [← e2]
      exact h2
    have hstep := ih
      { t with fires := t.fires + 1, deadline := t.deadline + t.period }
      (by simp [hper]) (by simp [hact]) (by simp [hstop]) (by simp [har])
      (by
        show t.deadline + t.period + j * P ≤ now
        rw [hper]
        omega)
      (by
        show now < t.deadline + t.period + (j + 1) * P
        rw [hper, e1]
        omega)
    rw [hstep]
    have hd : t.deadline + t.period + (j + 1) * P =
        t.deadline + (j + 1 + 1) * P := by
      rw [hper, e1, e2]
      omega
    have hf : t.fires + 1 + (j + 1) = t.fires + (j + 1 + 1) := by omega
    simp [hd, hf]

/-- C7: an active auto-reload timer with period `P`, already running at
the start of an observation window of length `D = mval * P` (its next
deadline lies within one period of the window start), records a number
of callback invocations over the window that is `D / P` or `D / P - 1`
and never exceeds `D / P`.  (In the model the service is prompt, so the
count is exactly `D / P`, which satisfies the claimed bounds.) -/
theorem auto_reload_expire_rate (t : Timer) (t1 P D mval : Nat)
    (hper : t.period = P) (hP : P ≠ 0) (hact : t.active = true)
    (hstop : t.stopRequested = false) (har : t.autoReload = true)
    (hD : D = mval * P)
    (hlow : t1 < t.deadline) (hhigh : t.deadline ≤ t1 + P) :
    (processExpired (t1 + D) t).fires - t.fires ≤ D / P ∧
    ((processExpired (t1 + D) t).fires - t.fires = D / P ∨
      (processExpired (t1 + D) t).fires - t.fires = D / P - 1) := by
  have hDP : D / P = mval := by
    rw [hD]
    exact Nat.mul_div_cancel mval (Nat.pos_of_ne_zero hP)
  cases mval with
  | zero =>
    have hD0 : D = 0 := by
      rw [hD]
      exact Nat.zero_mul P
    have hnf : processExpired (t1 + D) t = t := by
      unfold processExpired
      rw [dif_neg]
      intro hcond
      obtain ⟨c1, c2, c3⟩ := hcond
      rw [hD0] at c3
      omega
    rw [hnf, hDP]
    simp
  | succ j =>
    have e1 : (j + 1) * P = j * P + P := Nat.succ_mul j P
    have hcount := processExpired_reload_count (t1 + D) P hP j t hper hact
      hstop har
      (by
        rw [hD, e1]
        omega)
      (by
        rw [hD]
        omega)
    rw [hcount, hDP]
    simp

/-- Witness for `auto_reload_expire_rate`: `reloadTimer` observed over
the window (4, 10] of length 6 = 3 periods. -/
theorem auto_reload_expire_rate_witness :
    (reloadTimer.period = 2 ∧
      (2 : Nat) ≠ 0 ∧
      reloadTimer.active = true ∧
      reloadTimer.stopRequested = false ∧
      reloadTimer.autoReload = true ∧
      (6 : Nat) = 3 * 2 ∧
      4 < reloadTimer.deadline ∧
      reloadTimer.deadline ≤ 4 + 2) ∧
    ((processExpired (4 + 6) reloadTimer).fires - reloadTimer.fires ≤ 6 / 2 ∧
      ((processExpired (4 + 6) reloadTimer).fires - reloadTimer.fires = 6 / 2 ∨
        (processExpired (4 + 6) reloadTimer).fires - reloadTimer.fires
          = 6 / 2 - 1)) :=
  ⟨⟨rfl, by decide, rfl, rfl, rfl, by decide, by decide, by decide⟩,
    auto_reload_expire_rate reloadTimer 4 2 6 3 rfl (by decide) rfl rfl rfl
      (by decide) (by decide) (by decide)⟩

/-- C8: a successful interrupt-context give followed immediately by a
second give (no intervening take) makes the second return `fail`; from
an outstanding (taken) mutex the first give succeeds; and in every
state the call returns `pass` or `fail` at once — it never blocks. -/
theorem isr_give_twice (pending : Bool) :
    ((giveFromISR pending).1 = KResult.pass →
      (giveFromISR (giveFromISR pending).2).1 = KResult.fail) ∧
    (pending = false → (giveFromISR pending).1 = KResult.pass) ∧
    ((giveFromISR pending).1 = KResult.pass ∨
      (giveFromISR pending).1 = KResult.fail) := by
  cases pending <;> simp [giveFromISR]

/-- Witness for `isr_give_twice`: from the outstanding state the first
give passes and the immediately following give fails. -/
theorem isr_give_twice_witness :
    (giveFromISR false).1 = KResult.pass ∧
    (giveFromISR (giveFromISR false).2).1 = KResult.fail :=
  ⟨(isr_give_twice false).2.1 rfl,
    (isr_give_twice false).1 ((isr_give_twice false).2.1 rfl)⟩

theorem takeRecN_owned (t : TaskId) :
    ∀ (n d : Nat), takeRecN t n { owner := some t, depth := d } =
      { owner := some t, depth := d + n } := by
  intro n
  induction n with
  | zero =>
    intro d
    simp [takeRecN]
  | succ n ih =>
    intro d
    rw [takeRecN, takeRecursive]
    simp [ih]
    omega

theorem giveRecN_behaviour (t : TaskId) :
    ∀ (kk d : Nat), 0 < d → kk ≤ d →
      givesAllPass t kk { owner := some t, depth := d } ∧
      giveRecN t kk { owner := some t, depth := d } =
        (if kk < d then { owner := some t, depth := d - kk }
          else { owner := none, depth := 0 }) := by
  intro kk
  induction kk with
  | zero =>
    intro d hd hkd
    refine ⟨trivial, ?_⟩
    rw [giveRecN]
    rw [if_pos hd]
    simp
  | succ kk ih =>
    intro d hd hkd
    by_cases hdeep : d ≤ 1
    · have hd1 : d = 1 := by omega
      have hk0 : kk = 0 := by omega
      subst hd1
      subst hk0
      refine ⟨?_, ?_⟩
      · rw [givesAllPass, giveRecursive]
        simp [givesAllPass]
      · rw [giveRecN, giveRecursive]
        simp [giveRecN]
    · have hstep : giveRecursive t { owner := some t, depth := d } =
          (KResult.pass, { owner := some t, depth := d - 1 }) := by
        rw [giveRecursive]
        rw [if_pos rfl, if_neg hdeep]
      obtain ⟨hp, hq⟩ := ih (d - 1) (by omega) (by omega)
      refine ⟨?_, ?_⟩
      · rw [givesAllPass, hstep]
        exact ⟨rfl, hp⟩
      · rw [giveRecN, hstep]
        simp only
        rw [hq]
        by_cases hlt : kk + 1 < d
        · rw [if_pos (by omega), if_pos hlt]
          have e : d - 1 - kk = d - (kk + 1) := by omega
          rw [e]
        · rw [if_neg (by omega), if_neg hlt]

/-- C9: for a recursive mutex, a give by a non-owner fails; after task
`t` takes the free mutex `n` times, the depth is `n` and each of the
first `n` gives passes; while fewer than `n` gives have been issued the
mutex is still owned by `t` and a take by another task `u` fails; after
the `n`-th give the mutex is free and `u` can take it; and an
`(n + 1)`-th give by `t` fails. -/
theorem recursive_mutex_discipline (t u : TaskId) (n : Nat)
    (hn : 0 < n) (hu : u ≠ t) :
    (∀ m : RecMutex, m.owner ≠ some u → (giveRecursive u m).1 = KResult.fail) ∧
    takeRecN t n { owner := none, depth := 0 } = { owner := some t, depth := n } ∧
    givesAllPass t n { owner := some t, depth := n } ∧
    (∀ kk, kk < n →
      (giveRecN t kk { owner := some t, depth := n }).owner = some t ∧
      (takeRecursive u (giveRecN t kk { owner := some t, depth := n })).1 =
        KResult.fail) ∧
    giveRecN t n { owner := some t, depth := n } = { owner := none, depth := 0 } ∧
    (takeRecursive u (giveRecN t n { owner := some t, depth := n })).1 =
      KResult.pass ∧
    (giveRecursive t (giveRecN t n { owner := some t, depth := n })).1 =
      KResult.fail := by
  have htake : takeRecN t n { owner := none, depth := 0 } =
      { owner := some t, depth := n } := by
    cases n with
    | zero => exact absurd hn (by omega)
    | succ n0 =>
      rw [takeRecN, takeRecursive]
      simp only
      rw [takeRecN_owned t n0 1]
      simp [Nat.add_comm 1 n0]
  have hgiven := giveRecN_behaviour t n n hn (le_refl n)
  refine ⟨?_, htake, hgiven.1, ?_, ?_, ?_, ?_⟩
  · intro m hm
    rw [giveRecursive, if_neg hm]
  · intro kk hkk
    obtain ⟨_, hq⟩ := giveRecN_behaviour t kk n hn (by omega)
    rw [hq, if_pos hkk]
    constructor
    · rfl
    · rw [takeRecursive]
      simp [Ne.symm hu]
  · rw [hgiven.2, if_neg (by omega)]
  · rw [hgiven.2, if_neg (by omega)]
    rw [takeRecursive]
  · rw [hgiven.2, if_neg (by omega)]
    rw [giveRecursive]
    simp

/-- Witness for `recursive_mutex_discipline` at `t = 0`, `u = 1`,
`n = 2`. -/
theorem recursive_mutex_discipline_witness :
    ((0 : Nat) < 2 ∧ (1 : TaskId) ≠ 0) ∧
    ((∀ m : RecMutex, m.owner ≠ some 1 →
        (giveRecursive 1 m).1 = KResult.fail) ∧
      takeRecN 0 2 { owner := none, depth := 0 } =
        { owner := some 0, depth := 2 } ∧
      givesAllPass 0 2 { owner := some 0, depth := 2 } ∧
      (∀ kk, kk < 2 →
        (giveRecN 0 kk { owner := some 0, depth := 2 }).owner = some 0 ∧
        (takeRecursive 1 (giveRecN 0 kk { owner := some 0, depth := 2 })).1 =
          KResult.fail) ∧
      giveRecN 0 2 { owner := some 0, depth := 2 } =
        { owner := none, depth := 0 } ∧
      (takeRecursive 1 (giveRecN 0 2 { owner := some 0, depth := 2 })).1 =
        KResult.pass ∧
      (giveRecursive 0 (giveRecN 0 2 { owner := some 0, depth := 2 })).1 =
        KResult.fail) :=
  ⟨⟨by decide, by decide⟩, recursive_mutex_discipline 0 1 2 (by decide) (by decide)⟩

/-- C10: before the scheduler runs, `xTimerStart` behaves identically
for every requested block time (it is treated as zero, even
`portMAX_DELAY`), never blocks, returns `pass` exactly while the
command queue has space, and returns `fail` once the queue already
holds `capacity` unprocessed commands. -/
theorem timer_start_before_scheduler (capacity : Nat) (q : List Nat)
    (cmd blockTime : Nat) :
    xTimerStartPreScheduler capacity q cmd blockTime =
      xTimerStartPreScheduler capacity q cmd 0 ∧
    (xTimerStartPreScheduler capacity q cmd blockTime).1 ≠
      SendRes.blockedWait ∧
    ((xTimerStartPreScheduler capacity q cmd blockTime).1 = SendRes.pass ↔
      q.length < capacity) ∧
    (q.length = capacity →
      (xTimerStartPreScheduler capacity q cmd blockTime).1 = SendRes.fail) := by
  unfold xTimerStartPreScheduler queueSendCmd
  by_cases hlen : q.length < capacity
  · simp [hlen]
    omega
  · simp [hlen]

/-- Witness for `timer_start_before_scheduler` with a full queue of
capacity 2: the start fails regardless of the requested block time. -/
theorem timer_start_before_scheduler_witness :
    (xTimerStartPreScheduler 2 [5, 6] 7 1000 =
      xTimerStartPreScheduler 2 [5, 6] 7 0 ∧
    (xTimerStartPreScheduler 2 [5, 6] 7 1000).1 ≠ SendRes.blockedWait ∧
    ((xTimerStartPreScheduler 2 [5, 6] 7 1000).1 = SendRes.pass ↔
      ([5, 6] : List Nat).length < 2) ∧
    (([5, 6] : List Nat).length = 2 →
      (xTimerStartPreScheduler 2 [5, 6] 7 1000).1 = SendRes.fail)) :=
  timer_start_before_scheduler 2 [5, 6] 7 1000

end FreeRTOSSpec
